import Mathlib

/-!
Verification of the supaero2023 repository's trajectory-reference generator
(`TrajRef`, used from notebook 4-dynamics) and of the pick-and-place display
loop (`tp2/generated/simple_pick_and_place_7`).

The class `TrajRef` lives in `tp4/traj_ref.py`, which is not part of the
sources at hand (only its call sites in the notebook are); its data model and
evaluation functions are therefore modelled from the specification.  The
pick-and-place loop is embedded directly from its source file.
-/

namespace Supaero

/-- Modelled from the spec: the `amplitudes` argument of the missing
`tp4/traj_ref.py` constructor is "either a single scalar (shared by all
channels) or an ordered sequence of N real numbers". -/
inductive Amplitudes where
  | scalar (a : ℝ)
  | seq (as : List ℝ)

/-- Modelled from the spec: the data model of the missing `tp4/traj_ref.py`
class `TrajRef` — a base vector, per-channel angular frequencies, per-channel
amplitudes and per-channel phases, all index-aligned sequences of the same
length N, fixed at construction. -/
structure TrajRef where
  base : List ℝ
  frequencies : List ℝ
  amplitudes : List ℝ
  phases : List ℝ
  len_frequencies : frequencies.length = base.length
  len_amplitudes : amplitudes.length = base.length
  len_phases : phases.length = base.length

/-- Modelled from the spec: scalar-amplitude broadcast of the missing
`tp4/traj_ref.py` — a single scalar is shared by all N channels, a sequence
is taken as given. -/
def expandAmplitudes (n : ℕ) : Amplitudes → List ℝ
  | .scalar a => List.replicate n a
  | .seq as => as

/-- Modelled from the spec: default phases of the missing `tp4/traj_ref.py`
— omitted phases default to zero per channel. -/
def defaultPhases (n : ℕ) : Option (List ℝ) → List ℝ
  | none => List.replicate n 0
  | some p => p

/-- Modelled from the spec: construction of a `TrajRef` (missing
`tp4/traj_ref.py`).  A scalar amplitude is expanded to all channels, omitted
phases default to zero per channel, and any channel-count mismatch across
base/frequencies/amplitudes/phases is a configuration error: no object is
constructed (`none`). -/
def TrajRef.make (base frequencies : List ℝ) (amplitudes : Amplitudes)
    (phases : Option (List ℝ)) : Option TrajRef :=
  if h : frequencies.length = base.length ∧
      (expandAmplitudes base.length amplitudes).length = base.length ∧
      (defaultPhases base.length phases).length = base.length then
    some ⟨base, frequencies, expandAmplitudes base.length amplitudes,
      defaultPhases base.length phases, h.1, h.2.1, h.2.2⟩
  else
    none

/-- Modelled from the spec: `position(t)` of the missing `tp4/traj_ref.py` —
for channel i, `base[i] + amplitude[i] * sin(frequency[i] * t + phase[i])`. -/
noncomputable def TrajRef.position (r : TrajRef) (t : ℝ) : List ℝ :=
  (List.range r.base.length).map fun i =>
    r.base.getD i 0 + r.amplitudes.getD i 0 *
      Real.sin (r.frequencies.getD i 0 * t + r.phases.getD i 0)

/-- Modelled from the spec: `velocity(t)` of the missing `tp4/traj_ref.py` —
for channel i, `amplitude[i] * frequency[i] * cos(frequency[i] * t + phase[i])`. -/
noncomputable def TrajRef.velocity (r : TrajRef) (t : ℝ) : List ℝ :=
  (List.range r.base.length).map fun i =>
    r.amplitudes.getD i 0 * r.frequencies.getD i 0 *
      Real.cos (r.frequencies.getD i 0 * t + r.phases.getD i 0)

/-- Modelled from the spec: `acceleration(t)` of the missing
`tp4/traj_ref.py` — for channel i,
`-amplitude[i] * frequency[i]^2 * sin(frequency[i] * t + phase[i])`. -/
noncomputable def TrajRef.acceleration (r : TrajRef) (t : ℝ) : List ℝ :=
  (List.range r.base.length).map fun i =>
    -(r.amplitudes.getD i 0) * r.frequencies.getD i 0 ^ 2 *
      Real.sin (r.frequencies.getD i 0 * t + r.phases.getD i 0)

theorem position_length (r : TrajRef) (t : ℝ) :
    (r.position t).length = r.base.length := by
  simp [TrajRef.position]

theorem velocity_length (r : TrajRef) (t : ℝ) :
    (r.velocity t).length = r.base.length := by
  simp [TrajRef.velocity]

theorem acceleration_length (r : TrajRef) (t : ℝ) :
    (r.acceleration t).length = r.base.length := by
  simp [TrajRef.acceleration]

theorem position_getD (r : TrajRef) (t : ℝ) (i : ℕ) (h : i < r.base.length) :
    (r.position t).getD i 0 =
      r.base.getD i 0 + r.amplitudes.getD i 0 *
        Real.sin (r.frequencies.getD i 0 * t + r.phases.getD i 0) := by
  rw [List.getD_eq_getElem _ _ (by simpa [position_length] using h)]
  simp [TrajRef.position]

theorem velocity_getD (r : TrajRef) (t : ℝ) (i : ℕ) (h : i < r.base.length) :
    (r.velocity t).getD i 0 =
      r.amplitudes.getD i 0 * r.frequencies.getD i 0 *
        Real.cos (r.frequencies.getD i 0 * t + r.phases.getD i 0) := by
  rw [List.getD_eq_getElem _ _ (by simpa [velocity_length] using h)]
  simp [TrajRef.velocity]

theorem acceleration_getD (r : TrajRef) (t : ℝ) (i : ℕ) (h : i < r.base.length) :
    (r.acceleration t).getD i 0 =
      -(r.amplitudes.getD i 0) * r.frequencies.getD i 0 ^ 2 *
        Real.sin (r.frequencies.getD i 0 * t + r.phases.getD i 0) := by
  rw [List.getD_eq_getElem _ _ (by simpa [acceleration_length] using h)]
  simp [TrajRef.acceleration]

/-- A fixed 3-channel reference used to instantiate universally quantified
theorems at a concrete input. -/
def sampleRef : TrajRef :=
  ⟨[0, 0, 0], [1, 2, 3], [1.5, 1.5, 1.5], [0, 0, 0], rfl, rfl, rfl⟩

/-- C1: for every validly constructed `TrajRef` and every real t,
`position(t)` returns, for each channel i,
`base[i] + amplitude[i] * sin(frequency[i] * t + phase[i])`. -/
theorem position_spec (r : TrajRef) (t : ℝ) (i : ℕ) (h : i < r.base.length) :
    (r.position t).get ⟨i, by rw [position_length]; exact h⟩ =
      r.base.getD i 0 + r.amplitudes.getD i 0 *
        Real.sin (r.frequencies.getD i 0 * t + r.phases.getD i 0) := by
  rw [List.get_eq_getElem, ← List.getD_eq_getElem _ 0, position_getD r t i h]

/-- Witness for C1: the position formula evaluated on the concrete
3-channel reference at channel 0 and t = 1. -/
theorem position_spec_witness :
    0 < sampleRef.base.length ∧
      (sampleRef.position 1).get ⟨0, by rw [position_length]; decide⟩ =
        sampleRef.base.getD 0 0 + sampleRef.amplitudes.getD 0 0 *
          Real.sin (sampleRef.frequencies.getD 0 0 * 1 + sampleRef.phases.getD 0 0) :=
  ⟨by decide, position_spec sampleRef 1 0 (by decide)⟩

/-- C2: for every validly constructed `TrajRef` and every real t,
`velocity(t)` returns, for each channel i,
`amplitude[i] * frequency[i] * cos(frequency[i] * t + phase[i])`, and this is
the exact analytic time-derivative of `position(t)[i]` with respect to t. -/
theorem velocity_spec (r : TrajRef) (t : ℝ) (i : ℕ) (h : i < r.base.length) :
    (r.velocity t).getD i 0 =
      r.amplitudes.getD i 0 * r.frequencies.getD i 0 *
        Real.cos (r.frequencies.getD i 0 * t + r.phases.getD i 0) ∧
    HasDerivAt (fun s => (r.position s).getD i 0) ((r.velocity t).getD i 0) t := by
  refine ⟨velocity_getD r t i h, ?_⟩
  have hfun : (fun s => (r.position s).getD i 0) =
      fun s => r.base.getD i 0 + r.amplitudes.getD i 0 *
        Real.sin (r.frequencies.getD i 0 * s + r.phases.getD i 0) :=
    funext fun s => position_getD r s i h
  rw [hfun, velocity_getD r t i h]
  have h1 : HasDerivAt (fun s : ℝ => r.frequencies.getD i 0 * s + r.phases.getD i 0)
      (r.frequencies.getD i 0) t := by
    simpa using ((hasDerivAt_id t).const_mul (r.frequencies.getD i 0)).add_const
      (r.phases.getD i 0)
  have h2 := (Real.hasDerivAt_sin (r.frequencies.getD i 0 * t + r.phases.getD i 0)).comp t h1
  have h3 := (h2.const_mul (r.amplitudes.getD i 0)).const_add (r.base.getD i 0)
  convert h3 using 1
  ring

/-- Witness for C2: the velocity formula and derivative property on the
concrete 3-channel reference at channel 1 and t = 2. -/
theorem velocity_spec_witness :
    1 < sampleRef.base.length ∧
      ((sampleRef.velocity 2).getD 1 0 =
        sampleRef.amplitudes.getD 1 0 * sampleRef.frequencies.getD 1 0 *
          Real.cos (sampleRef.frequencies.getD 1 0 * 2 + sampleRef.phases.getD 1 0) ∧
      HasDerivAt (fun s => (sampleRef.position s).getD 1 0)
        ((sampleRef.velocity 2).getD 1 0) 2) :=
  ⟨by decide, velocity_spec sampleRef 2 1 (by decide)⟩

/-- C3: for every validly constructed `TrajRef` and every real t,
`acceleration(t)` returns, for each channel i,
`-amplitude[i] * frequency[i]^2 * sin(frequency[i] * t + phase[i])`, and
equivalently `acceleration(t)[i] = -frequency[i]^2 * (position(t)[i] - base[i])`. -/
theorem acceleration_spec (r : TrajRef) (t : ℝ) (i : ℕ) (h : i < r.base.length) :
    (r.acceleration t).getD i 0 =
      -(r.amplitudes.getD i 0) * r.frequencies.getD i 0 ^ 2 *
        Real.sin (r.frequencies.getD i 0 * t + r.phases.getD i 0) ∧
    (r.acceleration t).getD i 0 =
      -(r.frequencies.getD i 0) ^ 2 * ((r.position t).getD i 0 - r.base.getD i 0) := by
  refine ⟨acceleration_getD r t i h, ?_⟩
  rw [acceleration_getD r t i h, position_getD r t i h]
  ring

/-- Witness for C3: the acceleration formula and its relation to position on
the concrete 3-channel reference at channel 2 and t = 3. -/
theorem acceleration_spec_witness :
    2 < sampleRef.base.length ∧
      ((sampleRef.acceleration 3).getD 2 0 =
        -(sampleRef.amplitudes.getD 2 0) * sampleRef.frequencies.getD 2 0 ^ 2 *
          Real.sin (sampleRef.frequencies.getD 2 0 * 3 + sampleRef.phases.getD 2 0) ∧
      (sampleRef.acceleration 3).getD 2 0 =
        -(sampleRef.frequencies.getD 2 0) ^ 2 *
          ((sampleRef.position 3).getD 2 0 - sampleRef.base.getD 2 0)) :=
  ⟨by decide, acceleration_spec sampleRef 3 2 (by decide)⟩

/-- C5: for every validly constructed `TrajRef`, `position`, `velocity` and
`acceleration` are total over all real t — every real input, negative values
included, yields a defined N-channel output vector; the functions are pure,
so no evaluation has side effects or raises an error. -/
theorem eval_total (r : TrajRef) (t : ℝ) :
    (r.position t).length = r.base.length ∧
    (r.velocity t).length = r.base.length ∧
    (r.acceleration t).length = r.base.length :=
  ⟨position_length r t, velocity_length r t, acceleration_length r t⟩

/-- C4: constructing a `TrajRef` with mismatched channel counts — frequencies,
sequence-valued amplitudes, or explicit phases of a length different from the
base — is a configuration error: `make` deterministically returns `none`, so
no object is constructed and no shape is truncated or broadcast. -/
theorem make_mismatch (base frequencies : List ℝ) (amplitudes : Amplitudes)
    (phases : Option (List ℝ))
    (h : frequencies.length ≠ base.length ∨
      (∃ as, amplitudes = Amplitudes.seq as ∧ as.length ≠ base.length) ∨
      (∃ p, phases = some p ∧ p.length ≠ base.length)) :
    TrajRef.make base frequencies amplitudes phases = none := by
  rw [TrajRef.make]
  rcases h with hf | ⟨as, ha, has⟩ | ⟨p, hp, hps⟩
  · rw [dif_neg]
    intro hc
    exact hf hc.1
  · subst ha
    rw [dif_neg]
    intro hc
    exact has hc.2.1
  · subst hp
    rw [dif_neg]
    intro hc
    exact hps hc.2.2

/-- Witness for C4: base of length 3 with frequencies of length 2 (the spec's
own example) constructs no object. -/
theorem make_mismatch_witness :
    ([1, 2] : List ℝ).length ≠ ([0, 0, 0] : List ℝ).length ∧
      TrajRef.make [0, 0, 0] [1, 2] (Amplitudes.scalar 1.5) none = none :=
  ⟨by decide, make_mismatch [0, 0, 0] [1, 2] (Amplitudes.scalar 1.5) none
    (Or.inl (by decide))⟩

/-- C6: for every validly constructed `TrajRef`, every channel i whose
frequency is nonzero, and every real t,
`position(t + 2π/frequency[i])[i] = position(t)[i]`. -/
theorem position_periodic (r : TrajRef) (t : ℝ) (i : ℕ) (h : i < r.base.length)
    (hf : r.frequencies.getD i 0 ≠ 0) :
    (r.position (t + 2 * Real.pi / r.frequencies.getD i 0)).getD i 0 =
      (r.position t).getD i 0 := by
  rw [position_getD r _ i h, position_getD r t i h]
  have hmul : r.frequencies.getD i 0 * (2 * Real.pi / r.frequencies.getD i 0) =
      2 * Real.pi := by
    rw [mul_comm]
    exact div_mul_cancel₀ _ hf
  have harg : r.frequencies.getD i 0 * (t + 2 * Real.pi / r.frequencies.getD i 0) +
      r.phases.getD i 0 =
      r.frequencies.getD i 0 * t + r.phases.getD i 0 + 2 * Real.pi := by
    rw [mul_add, hmul]
    ring
  rw [harg, Real.sin_add_two_pi]

/-- Witness for C6: periodicity of channel 0 (frequency 1) of the concrete
3-channel reference at t = 0. -/
theorem position_periodic_witness :
    0 < sampleRef.base.length ∧ sampleRef.frequencies.getD 0 0 ≠ 0 ∧
      (sampleRef.position (0 + 2 * Real.pi / sampleRef.frequencies.getD 0 0)).getD 0 0 =
        (sampleRef.position 0).getD 0 0 :=
  ⟨by decide, by norm_num [sampleRef],
    position_periodic sampleRef 0 0 (by decide) (by norm_num [sampleRef])⟩

/-- C7: with base [0,0,0], frequencies [1,2,3], shared scalar amplitude 1.5
and phases omitted (zero per channel), construction succeeds and at t = 0.2
the position is [1.5·sin 0.2, 1.5·sin 0.4, 1.5·sin 0.6] and the velocity is
[1.5·1·cos 0.2, 1.5·2·cos 0.4, 1.5·3·cos 0.6]. -/
theorem example_traj :
    ∃ r : TrajRef,
      TrajRef.make [0, 0, 0] [1, 2, 3] (Amplitudes.scalar 1.5) none = some r ∧
      r.position 0.2 =
        [1.5 * Real.sin 0.2, 1.5 * Real.sin 0.4, 1.5 * Real.sin 0.6] ∧
      r.velocity 0.2 =
        [1.5 * 1 * Real.cos 0.2, 1.5 * 2 * Real.cos 0.4, 1.5 * 3 * Real.cos 0.6] := by
  refine ⟨⟨[0, 0, 0], [1, 2, 3], [1.5, 1.5, 1.5], [0, 0, 0], rfl, rfl, rfl⟩, ?_, ?_, ?_⟩
  · rw [TrajRef.make, dif_pos ⟨rfl, rfl, rfl⟩]
    rfl
  · show (List.range 3).map _ = _
    norm_num [List.range_succ]
  · show (List.range 3).map _ = _
    norm_num [List.range_succ]

/-- C8: a `TrajRef` holds no mutable state: each of `position`, `velocity`
and `acceleration` is a pure, deterministic function of the elapsed time t
and of the data fixed at construction — any two objects with equal fields
evaluated at equal times return equal results, so repeated or unsynchronized
concurrent evaluation cannot observe or cause any state change. -/
theorem eval_pure (r r' : TrajRef) (hb : r.base = r'.base)
    (hf : r.frequencies = r'.frequencies) (ha : r.amplitudes = r'.amplitudes)
    (hp : r.phases = r'.phases) (t t' : ℝ) (ht : t = t') :
    r.position t = r'.position t' ∧ r.velocity t = r'.velocity t' ∧
      r.acceleration t = r'.acceleration t' := by
  cases r
  cases r'
  cases hb
  cases hf
  cases ha
  cases hp
  cases ht
  exact ⟨rfl, rfl, rfl⟩

/-- Witness for C8: two evaluations of the concrete 3-channel reference at
the same time t = 1 return equal results. -/
theorem eval_pure_witness :
    sampleRef.position 1 = sampleRef.position 1 ∧
      sampleRef.velocity 1 = sampleRef.velocity 1 ∧
      sampleRef.acceleration 1 = sampleRef.acceleration 1 :=
  eval_pure sampleRef sampleRef rfl rfl rfl rfl 1 1 rfl

/-!
Embedding of `tp2/generated/simple_pick_and_place_7`.  The robot's placement
function (pinocchio's `robot.placement(q, idx)`) is external to the
repository and is modelled as an arbitrary function from configurations into
a group `G` standing for SE(3); SE(3) composition, identity and inverse obey
the group laws.  The configuration is the 6-vector `q` of the UR5 arm.
-/

/-- The fixed joint velocity `vq = np.array([2.0, 0, 0, 4.0, 0, 0])` driving
the movement. -/
noncomputable def vq : Fin 6 → ℝ := ![2.0, 0, 0, 4.0, 0, 0]

/-- One iteration of the display loop's configuration update:
`q += vq / 40` followed by `q[2] = 1.71 + math.sin(i * 0.05) / 2`. -/
noncomputable def qUpdate (i : ℕ) (q : Fin 6 → ℝ) : Fin 6 → ℝ :=
  Function.update (fun j => q j + vq j / 40) 2 (1.71 + Real.sin (i * 0.05) / 2)

/-- The configuration after k iterations of the loop, starting from `q0`. -/
noncomputable def qIter (q0 : Fin 6 → ℝ) : ℕ → Fin 6 → ℝ
  | 0 => q0
  | k + 1 => qUpdate k (qIter q0 k)

/-- `effMbox = oMeff.inverse() * oMbox`: the placement of the box with
respect to the end effector, computed once before the loop from the initial
configuration `q0` and the initial box placement `oMbox0`. -/
def effMbox {G : Type} [Group G] (placement : (Fin 6 → ℝ) → G)
    (q0 : Fin 6 → ℝ) (oMbox0 : G) : G :=
  (placement q0)⁻¹ * oMbox0

/-- `oMbox = robot.placement(q, idx) * effMbox`: the box placement sent to
the viewer at iteration i of the loop (at which point the configuration has
been updated i + 1 times). -/
noncomputable def boxShown {G : Type} [Group G] (placement : (Fin 6 → ℝ) → G)
    (q0 : Fin 6 → ℝ) (oMbox0 : G) (i : ℕ) : G :=
  placement (qIter q0 (i + 1)) * effMbox placement q0 oMbox0

/-- C9: in the pick-and-place display loop, for every one of the 100
iterations, the box placement applied to the viewer equals the current
end-effector placement composed with the fixed transform `effMbox` computed
once before the loop, so `oMeff(q)⁻¹ * oMbox` always equals the initial
`effMbox`. -/
theorem box_relative_invariant {G : Type} [Group G]
    (placement : (Fin 6 → ℝ) → G) (q0 : Fin 6 → ℝ) (oMbox0 : G)
    (i : ℕ) (hi : i < 100) :
    boxShown placement q0 oMbox0 i =
      placement (qIter q0 (i + 1)) * effMbox placement q0 oMbox0 ∧
    (placement (qIter q0 (i + 1)))⁻¹ * boxShown placement q0 oMbox0 i =
      effMbox placement q0 oMbox0 := by
  refine ⟨rfl, ?_⟩
  rw [boxShown, inv_mul_cancel_left]

/-- Witness for C9: the invariant at iteration 0 with a concrete placement
function into the group `Multiplicative ℤ`. -/
theorem box_relative_invariant_witness :
    (0 : ℕ) < 100 ∧
      (boxShown (fun q => Multiplicative.ofAdd (Int.floor (q 0))) (fun _ => 0)
          (Multiplicative.ofAdd (5 : ℤ)) 0 =
        (fun q => Multiplicative.ofAdd (Int.floor (q 0))) (qIter (fun _ => 0) 1) *
          effMbox (fun q => Multiplicative.ofAdd (Int.floor (q 0))) (fun _ => 0)
            (Multiplicative.ofAdd (5 : ℤ)) ∧
      ((fun q => Multiplicative.ofAdd (Int.floor (q 0))) (qIter (fun _ => 0) 1))⁻¹ *
          boxShown (fun q => Multiplicative.ofAdd (Int.floor (q 0))) (fun _ => 0)
            (Multiplicative.ofAdd (5 : ℤ)) 0 =
        effMbox (fun q => Multiplicative.ofAdd (Int.floor (q 0))) (fun _ => 0)
          (Multiplicative.ofAdd (5 : ℤ))) :=
  ⟨by decide, box_relative_invariant (fun q => Multiplicative.ofAdd (Int.floor (q 0)))
    (fun _ => 0) (Multiplicative.ofAdd (5 : ℤ)) 0 (by decide)⟩

theorem vq_one : vq 1 = 0 := rfl

theorem vq_four : vq 4 = 0 := rfl

theorem vq_five : vq 5 = 0 := rfl

theorem qUpdate_fixed (i : ℕ) (q : Fin 6 → ℝ) :
    qUpdate i q 1 = q 1 ∧ qUpdate i q 4 = q 4 ∧ qUpdate i q 5 = q 5 := by
  refine ⟨?_, ?_, ?_⟩
  · rw [qUpdate, Function.update_noteq (by decide)]
    simp [vq_one]
  · rw [qUpdate, Function.update_noteq (by decide)]
    simp [vq_four]
  · rw [qUpdate, Function.update_noteq (by decide)]
    simp [vq_five]

theorem qIter_fixed (q0 : Fin 6 → ℝ) (k : ℕ) :
    qIter q0 k 1 = q0 1 ∧ qIter q0 k 4 = q0 4 ∧ qIter q0 k 5 = q0 5 := by
  induction k with
  | zero => exact ⟨rfl, rfl, rfl⟩
  | succ k ih =>
    have hstep := qUpdate_fixed k (qIter q0 k)
    rw [qIter]
    exact ⟨hstep.1.trans ih.1, hstep.2.1.trans ih.2.1, hstep.2.2.trans ih.2.2⟩

/-- C10: in the pick-and-place display loop, the configuration components
`q[1]`, `q[4]` and `q[5]` are unchanged by every iteration — the added
velocity `vq / 40` is zero there and only `q[2]` is overwritten — so after
all 100 iterations they retain their initial values. -/
theorem q145_unchanged (q0 : Fin 6 → ℝ) :
    (∀ (i : ℕ) (q : Fin 6 → ℝ),
      qUpdate i q 1 = q 1 ∧ qUpdate i q 4 = q 4 ∧ qUpdate i q 5 = q 5) ∧
    qIter q0 100 1 = q0 1 ∧ qIter q0 100 4 = q0 4 ∧ qIter q0 100 5 = q0 5 :=
  ⟨qUpdate_fixed, qIter_fixed q0 100⟩

end Supaero
